import Mathlib

/-!
# Verification of the AnalyticsSDK event queue / batching subsystem

Shallow embedding of the batching and delivery core of the AnalyticsSDK
repository (`src/queue.ts`, `src/utils/storage.ts`) together with proofs of
the specified properties.

Modelling conventions:
* `localStorage` is an association list from string keys to values; the
  underlying primitive operations may fail (quota exceeded, storage
  unavailable), which is modelled by a `fault : Bool` parameter: a faulting
  primitive returns `Except.error`, and the `Storage` wrapper catches it
  (`try/catch` in the source) and degrades to `none` / `false`.
* The queue persists its pending event list under the key
  `"analytics_queue_" ++ "events"`; the JSON round trip of
  `JSON.stringify`/`JSON.parse` is modelled as the identity on the typed
  value (the spec's serialize/deserialize pair contract).
* `flush` is asynchronous with a single suspension point (the `await` of the
  injected sender).  It is split at that point into `flushStart` (the
  synchronous prefix: guard, snapshot, clear, persist, set the processing
  flag) and `flushSettle` (the continuation run when the sender settles:
  `catch` requeues and re-persists, `finally` clears the flag).  The `catch`
  block of the source logs the error and does not rethrow, so the promise
  returned by `flush` always resolves; `runFlush` records that outcome.
* The interleaving of `add`, timer/manual `flush` and sender settlement on
  the single-threaded event loop is modelled by the step relation `Step` on
  `Machine`, which carries the queue state, the list of batches currently
  handed to the sender and not yet settled (`inflight`), and a running count
  of sender invocations.
-/

namespace AnalyticsSDK

/-- `Event` from `src/types.ts`: a name, optional properties, optional
timestamp.  Property values are modelled as strings (their structure is
irrelevant to the queue, which never inspects an event). -/
structure Event where
  name : String
  properties : List (String × String) := []
  timestamp : Option Nat := none
deriving DecidableEq, Repr

/-- The underlying `localStorage` medium: an association list from string
keys to values of type `α`. -/
abbrev Medium (α : Type) := List (String × α)

/-- The queue's namespacing key portion: `new Storage('analytics_queue_')`
in `src/queue.ts`. -/
def queueNs : String := "analytics_queue_"

/-- `localStorage.getItem`, which may throw (modelled by `fault`). -/
def lsGetItem {α : Type} (fault : Bool) (ls : Medium α) (k : String) :
    Except String (Option α) :=
  if fault then Except.error "storage unavailable"
  else Except.ok (ls.lookup k)

/-- `localStorage.setItem`, which may throw (e.g. quota exceeded). A
successful write replaces any previous binding of the key. -/
def lsSetItem {α : Type} (fault : Bool) (ls : Medium α) (k : String) (v : α) :
    Except String (Medium α) :=
  if fault then Except.error "quota exceeded"
  else Except.ok ((k, v) :: ls.filter (fun kv => kv.1 ≠ k))

/-- `localStorage.removeItem`, which may throw. -/
def lsRemoveItem {α : Type} (fault : Bool) (ls : Medium α) (k : String) :
    Except String (Medium α) :=
  if fault then Except.error "storage unavailable"
  else Except.ok (ls.filter (fun kv => kv.1 ≠ k))

/-- `key.startsWith(prefixString)` from `src/utils/storage.ts`, modelled
character by character. -/
def strStartsWith (s p : String) : Bool :=
  p.data.isPrefixOf s.data

/-- Removing every key that carries the given namespace portion: the loop
body of `Storage.clear` in `src/utils/storage.ts`, which may throw. -/
def lsClearNs {α : Type} (fault : Bool) (ls : Medium α) (ns : String) :
    Except String (Medium α) :=
  if fault then Except.error "storage unavailable"
  else Except.ok (ls.filter (fun kv => !(strStartsWith kv.1 ns)))

namespace Storage

/-- `Storage.get` from `src/utils/storage.ts`: namespaced read; a throwing
primitive is caught and degrades to `none` (absent). -/
def get {α : Type} (ns : String) (fault : Bool) (ls : Medium α)
    (key : String) : Option α :=
  match lsGetItem fault ls (ns ++ key) with
  | Except.ok v => v
  | Except.error _ => none

/-- `Storage.set` from `src/utils/storage.ts`: namespaced write returning a
success flag; a throwing primitive is caught, the medium is left unchanged
and `false` is returned. -/
def set {α : Type} (ns : String) (fault : Bool) (ls : Medium α)
    (key : String) (v : α) : Medium α × Bool :=
  match lsSetItem fault ls (ns ++ key) v with
  | Except.ok ls' => (ls', true)
  | Except.error _ => (ls, false)

/-- `Storage.remove` from `src/utils/storage.ts`. -/
def remove {α : Type} (ns : String) (fault : Bool) (ls : Medium α)
    (key : String) : Medium α × Bool :=
  match lsRemoveItem fault ls (ns ++ key) with
  | Except.ok ls' => (ls', true)
  | Except.error _ => (ls, false)

/-- `Storage.clear` from `src/utils/storage.ts`: erase every key under the
namespace portion; a throwing primitive is caught and `false` returned. -/
def clear {α : Type} (ns : String) (fault : Bool) (ls : Medium α) :
    Medium α × Bool :=
  match lsClearNs fault ls ns with
  | Except.ok ls' => (ls', true)
  | Except.error _ => (ls, false)

end Storage

/-- The queue's persisted medium holds event lists (the only value the
queue ever stores, under the single key `"events"`). -/
abbrev Store := Medium (List Event)

/-- The `EventQueue` instance state from `src/queue.ts`: the configuration
(immutable after construction), the in-memory pending events, the
processing flag, the persisted medium it reads and writes, and the
`console.error` log. -/
structure EventQueue where
  batchSize : Nat
  flushInterval : Nat
  events : List Event
  isProcessing : Bool
  store : Store
  log : List String
deriving DecidableEq, Repr

namespace EventQueue

/-- `persistEvents` with an explicit storage-fault parameter: the queue
writes the full pending sequence and ignores the success flag, so on a
fault the medium and the in-memory state are both unchanged. -/
def persistEventsWith (fault : Bool) (s : EventQueue) : EventQueue :=
  { s with store := (Storage.set queueNs fault s.store "events" s.events).1 }

/-- `EventQueue.persistEvents` from `src/queue.ts` (fault-free run). -/
def persistEvents (s : EventQueue) : EventQueue :=
  persistEventsWith false s

/-- The constructor of `EventQueue`: `loadPersistedEvents` adopts a
previously persisted pending sequence if present, else starts empty; the
processing flag starts cleared.  (The recurring timer and the unload hook
are host-runtime side effects outside the correctness model.) -/
def mkQueue (bs fi : Nat) (st : Store) : EventQueue :=
  { batchSize := bs
    flushInterval := fi
    events := (Storage.get queueNs false st "events").getD []
    isProcessing := false
    store := st
    log := [] }

/-- `EventQueue.add` tail-append and persist: the synchronous prefix of
`add` before the threshold test. -/
def addAppend (s : EventQueue) (e : Event) : EventQueue :=
  persistEvents { s with events := s.events ++ [e] }

/-- The synchronous prefix of `EventQueue.flush`, up to the `await` of the
injected sender: the empty/processing guard, then mark processing, snapshot
the whole pending sequence as the batch, clear it, persist the now-empty
sequence.  Returns the new state and the batch handed to the sender
(`none` when the guard made the call a no-op). -/
def flushStart (s : EventQueue) : EventQueue × Option (List Event) :=
  if s.events.length = 0 ∨ s.isProcessing = true then (s, none)
  else
    (persistEvents { s with isProcessing := true, events := [] }, some s.events)

/-- The continuation of `EventQueue.flush` once the sender settles.  On
failure the `catch` block logs, reinserts the batch at the head of the
pending sequence (`unshift`) and re-persists; the `finally` block clears
the processing flag in both branches. -/
def flushSettle (s : EventQueue) (batch : List Event) (ok : Bool) :
    EventQueue :=
  if ok then { s with isProcessing := false }
  else
    { persistEvents
        { s with
          events := batch ++ s.events
          log := s.log ++ ["Failed to flush events"] } with
      isProcessing := false }

/-- `EventQueue.add` from `src/queue.ts`: append to the tail, persist the
full sequence, and if the resulting size reaches `batchSize`, call `flush`
(whose synchronous prefix runs before `add` returns; the settlement
happens later). -/
def add (s : EventQueue) (e : Event) : EventQueue × Option (List Event) :=
  let s1 := addAppend s e
  if s1.batchSize ≤ s1.events.length then flushStart s1 else (s1, none)

/-- `EventQueue.size` from `src/queue.ts`. -/
def size (s : EventQueue) : Nat := s.events.length

/-- `EventQueue.clear` from `src/queue.ts`: drop the in-memory sequence and
erase every persisted key under the queue's namespace portion. -/
def clear (s : EventQueue) : EventQueue :=
  { s with
    events := []
    store := (Storage.clear queueNs false s.store).1 }

/-- Whether the promise returned by `flush` settled as resolved or
rejected, as observed by its caller. -/
inductive FlushOutcome where
  | resolved
  | rejected
deriving DecidableEq, Repr

/-- A whole run of `EventQueue.flush` given the sender's result for the
batch (if one is handed over).  The `catch` block of the source logs and
does not rethrow, so the returned promise resolves in every branch. -/
def runFlush (s : EventQueue) (senderResult : Except String Unit) :
    EventQueue × FlushOutcome :=
  match flushStart s with
  | (s1, none) => (s1, FlushOutcome.resolved)
  | (s1, some batch) =>
    match senderResult with
    | Except.ok _ => (flushSettle s1 batch true, FlushOutcome.resolved)
    | Except.error _ => (flushSettle s1 batch false, FlushOutcome.resolved)

/-- A sequence of `add` calls performed back to back, collecting every
batch handed to the sender along the way. -/
def addSeq (s : EventQueue) : List Event → EventQueue × List (List Event)
  | [] => (s, [])
  | e :: L =>
    let r := add s e
    let t := addSeq r.1 L
    (t.1, r.2.toList ++ t.2)

end EventQueue

open EventQueue

/-- The event-loop view of one queue instance: the queue state, the batches
currently handed to the sender and not yet settled, and the number of
sender invocations made so far. -/
structure Machine where
  q : EventQueue
  inflight : List (List Event)
  senderCalls : Nat
deriving DecidableEq, Repr

namespace Machine

/-- Record the result of a queue operation that may have handed a batch to
the sender: the batch joins the in-flight list and counts as one sender
invocation. -/
def dispatch (m : Machine) (p : EventQueue × Option (List Event)) :
    Machine :=
  { q := p.1
    inflight := m.inflight ++ p.2.toList
    senderCalls := m.senderCalls + (if p.2.isSome then 1 else 0) }

/-- One `add` call runs to completion (it never suspends). -/
def stepAdd (m : Machine) (e : Event) : Machine :=
  dispatch m (EventQueue.add m.q e)

/-- One timer-driven or manual `flush` call runs its synchronous prefix. -/
def stepFlush (m : Machine) : Machine :=
  dispatch m (flushStart m.q)

/-- An in-flight sender invocation settles and the continuation of its
`flush` runs. -/
def stepSettle (m : Machine) (b : List Event) (rest : List (List Event))
    (ok : Bool) : Machine :=
  { q := flushSettle m.q b ok
    inflight := rest
    senderCalls := m.senderCalls }

/-- One `clear` call runs to completion. -/
def stepClear (m : Machine) : Machine :=
  { m with q := EventQueue.clear m.q }

end Machine

/-- An interleaving step of the single-threaded event loop: an `add`, a
`flush` entry (timer-driven or manual — they share the entry point), the
settlement of an in-flight sender invocation, or a `clear`. -/
inductive Step : Machine → Machine → Prop where
  | add (m : Machine) (e : Event) : Step m (m.stepAdd e)
  | flush (m : Machine) : Step m m.stepFlush
  | settle (m : Machine) (b : List Event) (rest : List (List Event))
      (ok : Bool) (h : m.inflight = b :: rest) :
      Step m (m.stepSettle b rest ok)
  | clear (m : Machine) : Step m m.stepClear

/-- The machine as it stands right after the queue's constructor ran. -/
def initMachine (bs fi : Nat) (st : Store) : Machine :=
  { q := mkQueue bs fi st, inflight := [], senderCalls := 0 }

/-- States reachable from an initial machine by event-loop steps. -/
inductive Reachable (m0 : Machine) : Machine → Prop where
  | refl : Reachable m0 m0
  | tail {m m' : Machine} : Reachable m0 m → Step m m' → Reachable m0 m'

/-- The concurrency invariant: the processing flag is set exactly while one
sender invocation is in flight. -/
def ProcInv (m : Machine) : Prop :=
  m.inflight.length = (if m.q.isProcessing = true then 1 else 0)

/-! ### Concrete fixtures used by the witness theorems -/

/-- A sample event. -/
def ev1 : Event := { name := "e1" }

/-- Another sample event. -/
def ev2 : Event := { name := "e2" }

/-- An idle queue holding one pending event, `batchSize` 2. -/
def qA : EventQueue :=
  { batchSize := 2, flushInterval := 10000, events := [ev1]
    isProcessing := false, store := [], log := [] }

/-- An idle queue holding one pending event, `batchSize` 1. -/
def qB : EventQueue :=
  { batchSize := 1, flushInterval := 10000, events := [ev1]
    isProcessing := false, store := [], log := [] }

/-- A freshly constructed queue over an empty medium. -/
def qEmpty : EventQueue := EventQueue.mkQueue 2 10000 []

/-- A queue holding one pending event while a delivery is in flight. -/
def qBusy : EventQueue :=
  { batchSize := 2, flushInterval := 10000, events := [ev1]
    isProcessing := true, store := [], log := [] }

/-! ## Component lemmas -/

namespace EventQueue

@[simp] theorem persistEventsWith_events (fault : Bool) (s : EventQueue) :
    (persistEventsWith fault s).events = s.events := rfl

@[simp] theorem persistEventsWith_isProcessing (fault : Bool)
    (s : EventQueue) :
    (persistEventsWith fault s).isProcessing = s.isProcessing := rfl

@[simp] theorem persistEventsWith_batchSize (fault : Bool) (s : EventQueue) :
    (persistEventsWith fault s).batchSize = s.batchSize := rfl

@[simp] theorem persistEventsWith_log (fault : Bool) (s : EventQueue) :
    (persistEventsWith fault s).log = s.log := rfl

@[simp] theorem persistEvents_events (s : EventQueue) :
    (persistEvents s).events = s.events := rfl

@[simp] theorem persistEvents_isProcessing (s : EventQueue) :
    (persistEvents s).isProcessing = s.isProcessing := rfl

@[simp] theorem persistEvents_batchSize (s : EventQueue) :
    (persistEvents s).batchSize = s.batchSize := rfl

@[simp] theorem persistEvents_log (s : EventQueue) :
    (persistEvents s).log = s.log := rfl

/-- A fault-free write followed by a read of the same key yields the
written value. -/
theorem Storage_get_set {α : Type} (ns key : String) (ls : Medium α)
    (v : α) :
    Storage.get ns false (Storage.set ns false ls key v).1 key = some v := by
  simp [Storage.get, Storage.set, lsGetItem, lsSetItem, List.lookup]

/-- After a fault-free `persistEvents`, the persisted slot holds exactly
the current pending sequence. -/
theorem persistEvents_get (s : EventQueue) :
    Storage.get queueNs false (persistEvents s).store "events"
      = some s.events := by
  simpa [persistEvents, persistEventsWith] using
    Storage_get_set queueNs "events" s.store s.events

@[simp] theorem size_def (s : EventQueue) : size s = s.events.length := rfl

/-- The guard of `flush`: an empty pending sequence or a set processing
flag makes `flush` a no-op, with no batch handed over and the state (the
store included) untouched. -/
theorem flushStart_noop (s : EventQueue)
    (h : s.events = [] ∨ s.isProcessing = true) :
    flushStart s = (s, none) := by
  unfold flushStart
  rcases h with h | h <;> simp [h]

/-- When the guard passes, `flushStart` hands over the whole pending
sequence, clears it, persists the empty sequence and sets the flag. -/
theorem flushStart_fire (s : EventQueue) (h1 : s.isProcessing = false)
    (h2 : s.events ≠ []) :
    flushStart s =
      (persistEvents { s with isProcessing := true, events := [] },
        some s.events) := by
  unfold flushStart
  simp [h1, List.length_eq_zero, h2]

@[simp] theorem flushSettle_ok (s : EventQueue) (batch : List Event) :
    flushSettle s batch true = { s with isProcessing := false } := rfl

theorem flushSettle_fail_events (s : EventQueue) (batch : List Event) :
    (flushSettle s batch false).events = batch ++ s.events := rfl

theorem flushSettle_fail_isProcessing (s : EventQueue)
    (batch : List Event) :
    (flushSettle s batch false).isProcessing = false := rfl

theorem flushSettle_fail_log (s : EventQueue) (batch : List Event) :
    (flushSettle s batch false).log
      = s.log ++ ["Failed to flush events"] := rfl

theorem flushSettle_fail_get (s : EventQueue) (batch : List Event) :
    Storage.get queueNs false (flushSettle s batch false).store "events"
      = some (batch ++ s.events) := by
  simpa [flushSettle] using
    persistEvents_get
      { s with
        events := batch ++ s.events
        log := s.log ++ ["Failed to flush events"] }

/-- While the processing flag is set, `add` appends and persists but the
`flush` it may call is a no-op: no batch is handed to the sender. -/
theorem add_processing (s : EventQueue) (e : Event)
    (h : s.isProcessing = true) :
    add s e = (addAppend s e, none) := by
  have hno : flushStart (addAppend s e) = (addAppend s e, none) :=
    flushStart_noop _ (Or.inr (by simpa [addAppend] using h))
  show (if (addAppend s e).batchSize ≤ (addAppend s e).events.length
      then flushStart (addAppend s e) else (addAppend s e, none))
    = (addAppend s e, none)
  split <;> simp [hno]

@[simp] theorem addAppend_events (s : EventQueue) (e : Event) :
    (addAppend s e).events = s.events ++ [e] := rfl

@[simp] theorem addAppend_isProcessing (s : EventQueue) (e : Event) :
    (addAppend s e).isProcessing = s.isProcessing := rfl

@[simp] theorem addAppend_batchSize (s : EventQueue) (e : Event) :
    (addAppend s e).batchSize = s.batchSize := rfl

theorem addAppend_get (s : EventQueue) (e : Event) :
    Storage.get queueNs false (addAppend s e).store "events"
      = some (s.events ++ [e]) := by
  simpa [addAppend] using
    persistEvents_get { s with events := s.events ++ [e] }

/-- A run of `add` calls made while the processing flag is set appends all
the events, keeps the flag set, and hands no batch to the sender. -/
theorem addSeq_processing (L : List Event) (s : EventQueue)
    (h : s.isProcessing = true) :
    (addSeq s L).1.events = s.events ++ L ∧
    (addSeq s L).1.isProcessing = true ∧
    (addSeq s L).1.batchSize = s.batchSize ∧
    (addSeq s L).2 = [] := by
  induction L generalizing s with
  | nil => simp [addSeq, h]
  | cons e L ih =>
    have hadd := add_processing s e h
    have hproc : (addAppend s e).isProcessing = true := by simpa using h
    obtain ⟨h1, h2, h3, h4⟩ := ih (addAppend s e) hproc
    refine ⟨?_, ?_, ?_, ?_⟩ <;>
      simp [addSeq, hadd, h1, h2, h3, h4]

@[simp] theorem flushSettle_isProcessing (s : EventQueue)
    (batch : List Event) (ok : Bool) :
    (flushSettle s batch ok).isProcessing = false := by
  cases ok <;> rfl

@[simp] theorem clear_isProcessing (s : EventQueue) :
    (clear s).isProcessing = s.isProcessing := rfl

@[simp] theorem clear_events (s : EventQueue) :
    (clear s).events = [] := rfl

/-- Every `flushStart` either is a guarded no-op or hands over the whole
pending sequence from an idle queue while setting the flag. -/
theorem flushStart_shape (s : EventQueue) :
    flushStart s = (s, none) ∨
    ((flushStart s).2 = some s.events ∧
      (flushStart s).1.isProcessing = true ∧ s.isProcessing = false) := by
  by_cases h : s.events = [] ∨ s.isProcessing = true
  · exact Or.inl (flushStart_noop s h)
  · push_neg at h
    obtain ⟨h2, h1⟩ := h
    have h1' : s.isProcessing = false := by
      cases hp : s.isProcessing
      · rfl
      · exact absurd hp h1
    right
    rw [flushStart_fire s h1' h2]
    exact ⟨rfl, rfl, h1'⟩

@[simp] theorem addSeq_nil (s : EventQueue) : addSeq s [] = (s, []) := rfl

theorem addSeq_cons (s : EventQueue) (e : Event) (L : List Event) :
    addSeq s (e :: L) =
      ((addSeq (add s e).1 L).1,
        (add s e).2.toList ++ (addSeq (add s e).1 L).2) := rfl

/-- `add` unfolded at its threshold test. -/
theorem add_eq (s : EventQueue) (e : Event) :
    add s e =
      if (addAppend s e).batchSize ≤ (addAppend s e).events.length
      then flushStart (addAppend s e) else (addAppend s e, none) := rfl

/-- Every `add` either hands no batch over and leaves the flag as it was,
or hands a batch over from an idle queue while setting the flag. -/
theorem add_shape (s : EventQueue) (e : Event) :
    ((add s e).2 = none ∧ (add s e).1.isProcessing = s.isProcessing) ∨
    ((add s e).2.isSome ∧ (add s e).1.isProcessing = true ∧
      s.isProcessing = false) := by
  rw [add_eq]
  split
  · rcases flushStart_shape (addAppend s e) with h | ⟨h2, h1, h0⟩
    · rw [h]
      exact Or.inl ⟨rfl, by simp⟩
    · exact Or.inr ⟨by simp [h2], h1, by simpa using h0⟩
  · exact Or.inl ⟨rfl, by simp⟩

/-- `dispatch` preserves the concurrency invariant for any operation of the
two shapes above. -/
theorem dispatch_procInv (m : Machine)
    (p : EventQueue × Option (List Event)) (hinv : ProcInv m)
    (hshape : (p.2 = none ∧ p.1.isProcessing = m.q.isProcessing) ∨
      (p.2.isSome ∧ p.1.isProcessing = true ∧ m.q.isProcessing = false)) :
    ProcInv (m.dispatch p) := by
  unfold ProcInv Machine.dispatch at *
  rcases hshape with ⟨h2, h1⟩ | ⟨h2, h1, h0⟩
  · simp only [h2, h1, Option.toList_none, List.append_nil]
    exact hinv
  · rcases Option.isSome_iff_exists.mp h2 with ⟨b, hb⟩
    have hempty : m.inflight = [] := by
      rw [h0] at hinv
      simpa using hinv
    simp [hb, h1, hempty]

/-- Every event-loop step preserves the concurrency invariant. -/
theorem step_procInv {m m' : Machine} (hs : Step m m')
    (hinv : ProcInv m) : ProcInv m' := by
  cases hs with
  | add e => exact dispatch_procInv m _ hinv (add_shape m.q e)
  | flush =>
    refine dispatch_procInv m _ hinv ?_
    rcases flushStart_shape m.q with h | ⟨h2, h1, h0⟩
    · rw [h]
      exact Or.inl ⟨rfl, rfl⟩
    · exact Or.inr ⟨by simp [h2], h1, h0⟩
  | settle b rest ok h =>
    unfold ProcInv at *
    rw [h] at hinv
    have hproc : m.q.isProcessing = true := by
      cases hp : m.q.isProcessing
      · rw [hp] at hinv; simp at hinv
      · rfl
    rw [hproc] at hinv
    have hrest : rest = [] := by
      simpa using hinv
    simp [Machine.stepSettle, hrest]
  | clear =>
    unfold ProcInv at *
    simpa [Machine.stepClear] using hinv

/-- The invariant holds right after construction. -/
theorem procInv_init (bs fi : Nat) (st : Store) :
    ProcInv (initMachine bs fi st) := by
  simp [ProcInv, initMachine, mkQueue]

/-- The invariant holds in every reachable state. -/
theorem procInv_reachable {bs fi : Nat} {st : Store} {m : Machine}
    (h : Reachable (initMachine bs fi st) m) : ProcInv m := by
  induction h with
  | refl => exact procInv_init bs fi st
  | tail _ hs ih => exact step_procInv hs ih

/-- A `flush` entered while the flag is set changes nothing at all: same
queue state, same in-flight list, same sender-invocation count. -/
theorem stepFlush_noop (m : Machine) (h : m.q.isProcessing = true) :
    m.stepFlush = m := by
  unfold Machine.stepFlush Machine.dispatch
  rw [flushStart_noop m.q (Or.inr h)]
  simp

/-- `flushStart` never touches the log. -/
@[simp] theorem flushStart_fst_log (s : EventQueue) :
    (flushStart s).1.log = s.log := by
  unfold flushStart
  split <;> rfl

/-- A namespaced key always starts with its namespace portion. -/
theorem strStartsWith_append (ns k : String) :
    strStartsWith (ns ++ k) ns = true := by
  simp [strStartsWith]

/-- After filtering out every key that starts with the namespace portion,
looking up any key that starts with it finds nothing. -/
theorem lookup_filter_ns_none {α : Type} (ls : Medium α) (ns k : String)
    (h : strStartsWith k ns = true) :
    (ls.filter (fun kv => !(strStartsWith kv.1 ns))).lookup k = none := by
  induction ls with
  | nil => rfl
  | cons kv ls ih =>
    by_cases hkeep : strStartsWith kv.1 ns = true
    · simp [List.filter_cons, hkeep, ih]
    · have hne : (k == kv.1) = false := by
        rw [beq_eq_false_iff_ne]
        intro he
        rw [he] at h
        exact hkeep h
      simp [List.filter_cons, hkeep, List.lookup, hne, ih]

end EventQueue

/-! ## Fixtures for witnesses -/

/-- A persisted medium holding one previously queued event. -/
def st0 : Store := [(queueNs ++ "events", [ev1])]

/-- A reachable machine state with a delivery in flight: a queue built over
`st0` (so it adopts the persisted event) after one `flush` entry. -/
def m1 : Machine := (initMachine 1 5 st0).stepFlush

/-! ## The claims -/

/-- C2: `add(event)` appends the event to the tail of the pending sequence,
synchronously persists the full pending sequence to the Durable Slot, and
triggers a flush exactly when the resulting size is at least `batchSize`;
being a total function of the state it never suspends and never fails. -/
theorem C2_add_appends_persists_triggers (s : EventQueue) (e : Event) :
    (addAppend s e).events = s.events ++ [e] ∧
    Storage.get queueNs false (addAppend s e).store "events"
      = some (s.events ++ [e]) ∧
    add s e =
      (if s.batchSize ≤ s.events.length + 1
        then flushStart (addAppend s e) else (addAppend s e, none)) := by
  refine ⟨addAppend_events s e, addAppend_get s e, ?_⟩
  rw [add_eq]
  simp

/-- C3: from an idle queue with fewer than `batchSize` pending events, a
run of `add` calls whose count brings the total to exactly `batchSize`
hands exactly one batch to the sender, containing exactly the pending
events followed by the added ones in insertion order, and `size()` is `0`
synchronously after the triggering `add`, before the sender settles. -/
theorem C3_reaching_batchSize_flushes_once (s : EventQueue) (L : List Event)
    (h1 : s.isProcessing = false)
    (h2 : s.events.length + L.length = s.batchSize)
    (h3 : L ≠ []) :
    (addSeq s L).2 = [s.events ++ L] ∧
    size (addSeq s L).1 = 0 := by
  induction L generalizing s with
  | nil => exact absurd rfl h3
  | cons e L ih =>
    have hproc : (addAppend s e).isProcessing = false := by simpa using h1
    cases L with
    | nil =>
      have hcond :
          (addAppend s e).batchSize ≤ (addAppend s e).events.length := by
        simp only [addAppend_batchSize, addAppend_events, List.length_append,
          List.length_cons, List.length_nil] at h2 ⊢
        omega
      have hne : (addAppend s e).events ≠ [] := by simp
      have hfire := flushStart_fire (addAppend s e) hproc hne
      have hadd : add s e = flushStart (addAppend s e) := by
        rw [add_eq, if_pos hcond]
      constructor
      · rw [addSeq_cons, hadd, hfire]
        simp
      · rw [addSeq_cons, hadd, hfire]
        simp
    | cons e2 L2 =>
      have hcond :
          ¬ (addAppend s e).batchSize ≤ (addAppend s e).events.length := by
        simp only [addAppend_batchSize, addAppend_events, List.length_append,
          List.length_cons, List.length_nil] at h2 ⊢
        omega
      have hlen : (addAppend s e).events.length + (e2 :: L2).length
          = (addAppend s e).batchSize := by
        simp only [addAppend_batchSize, addAppend_events, List.length_append,
          List.length_cons, List.length_nil] at h2 ⊢
        omega
      obtain ⟨ih1, ih2⟩ := ih (addAppend s e) hproc hlen (by simp)
      have hadd : add s e = (addAppend s e, none) := by
        rw [add_eq, if_neg hcond]
      constructor
      · rw [addSeq_cons, hadd]
        simp [ih1]
      · rw [addSeq_cons, hadd]
        simpa using ih2

/-- Witness for C3 on the spec's scenario: `batchSize = 2`, two adds hand
the sender exactly `[e1, e2]` and the queue is empty right after. -/
theorem C3_witness :
    (addSeq qEmpty [ev1, ev2]).2 = [qEmpty.events ++ [ev1, ev2]] ∧
    size (addSeq qEmpty [ev1, ev2]).1 = 0 :=
  C3_reaching_batchSize_flushes_once qEmpty [ev1, ev2] rfl (by decide)
    (by decide)

/-- C4: `flush()` on an empty pending sequence, or while another flush is
in progress, is a no-op: the sender gets no batch, the state (persisted
store included) is unchanged, and the returned promise resolves
immediately. -/
theorem C4_flush_guard_noop (s : EventQueue) (res : Except String Unit)
    (h : s.events = [] ∨ s.isProcessing = true) :
    flushStart s = (s, none) ∧
    runFlush s res = (s, FlushOutcome.resolved) := by
  have h1 := flushStart_noop s h
  refine ⟨h1, ?_⟩
  unfold runFlush
  rw [h1]

/-- Witness for C4: a freshly constructed queue over an empty medium. -/
theorem C4_witness :
    flushStart qEmpty = (qEmpty, none) ∧
    runFlush qEmpty (Except.ok ()) = (qEmpty, FlushOutcome.resolved) :=
  C4_flush_guard_noop qEmpty (Except.ok ()) (Or.inl rfl)

/-- C1: when the sender of a non-empty batch fails, the batch is
reinserted at the head of the pending sequence in its original order,
ahead of every event added during the attempt; `size()` afterwards equals
the batch size plus the later adds; the restored sequence is re-persisted;
and the next flush hands the sender exactly those events, the failed batch
first and unchanged. -/
theorem C1_failed_flush_requeues (s : EventQueue) (L : List Event)
    (h1 : s.isProcessing = false) (h2 : s.events ≠ []) :
    (flushStart s).2 = some s.events ∧
    (addSeq (flushStart s).1 L).2 = [] ∧
    (flushSettle (addSeq (flushStart s).1 L).1 s.events false).events
      = s.events ++ L ∧
    size (flushSettle (addSeq (flushStart s).1 L).1 s.events false)
      = s.events.length + L.length ∧
    Storage.get queueNs false
        (flushSettle (addSeq (flushStart s).1 L).1 s.events false).store
        "events"
      = some (s.events ++ L) ∧
    (flushStart
        (flushSettle (addSeq (flushStart s).1 L).1 s.events false)).2
      = some (s.events ++ L) ∧
    (flushStart
        (flushSettle (addSeq (flushStart s).1 L).1 s.events false)).1.events
      = [] := by
  have hfire := flushStart_fire s h1 h2
  rw [hfire]
  obtain ⟨a1, a2, a3, a4⟩ :=
    addSeq_processing L
      (persistEvents { s with isProcessing := true, events := [] })
      (by simp)
  have hev :
      (addSeq (persistEvents { s with isProcessing := true, events := [] })
        L).1.events = L := by
    rw [a1]
    simp
  have hrest :
      (flushSettle
        (addSeq (persistEvents { s with isProcessing := true, events := [] })
          L).1 s.events false).events = s.events ++ L := by
    rw [flushSettle_fail_events, hev]
  have hne2 :
      (flushSettle
        (addSeq (persistEvents { s with isProcessing := true, events := [] })
          L).1 s.events false).events ≠ [] := by
    rw [hrest]
    intro hcontr
    exact h2 (List.append_eq_nil.mp hcontr).1
  have hfire2 :=
    flushStart_fire _ (flushSettle_isProcessing _ _ _) hne2
  refine ⟨rfl, a4, hrest, ?_, ?_, ?_, ?_⟩
  · rw [size_def, hrest, List.length_append]
  · rw [flushSettle_fail_get, hev]
  · rw [hfire2, hrest]
  · rw [hfire2]
    simp

/-- Witness for C1: one pending event, one event added during the failed
attempt. -/
theorem C1_witness :
    (flushStart qA).2 = some qA.events ∧
    (addSeq (flushStart qA).1 [ev2]).2 = [] ∧
    (flushSettle (addSeq (flushStart qA).1 [ev2]).1 qA.events false).events
      = qA.events ++ [ev2] ∧
    size (flushSettle (addSeq (flushStart qA).1 [ev2]).1 qA.events false)
      = qA.events.length + [ev2].length ∧
    Storage.get queueNs false
        (flushSettle (addSeq (flushStart qA).1 [ev2]).1 qA.events false).store
        "events"
      = some (qA.events ++ [ev2]) ∧
    (flushStart
        (flushSettle (addSeq (flushStart qA).1 [ev2]).1 qA.events false)).2
      = some (qA.events ++ [ev2]) ∧
    (flushStart
        (flushSettle (addSeq (flushStart qA).1 [ev2]).1 qA.events
          false)).1.events
      = [] :=
  C1_failed_flush_requeues qA [ev2] rfl (by decide)

/-- C9: an `add` performed while a delivery is in flight hands no batch to
the sender even when it brings the count to `batchSize` (its `flush` call
is a no-op under the processing guard); the event stays pending and is
handed over by the next flush entered after the in-flight attempt
settles. -/
theorem C9_add_while_processing_no_send (s : EventQueue) (e : Event)
    (b : List Event) (hp : s.isProcessing = true)
    (_hfull : s.batchSize ≤ s.events.length + 1) :
    (add s e).2 = none ∧
    (add s e).1.events = s.events ++ [e] ∧
    (add s e).1.isProcessing = true ∧
    (flushStart (flushSettle (add s e).1 b true)).2
      = some (s.events ++ [e]) := by
  have ha := add_processing s e hp
  rw [ha]
  refine ⟨rfl, by simp, by simpa using hp, ?_⟩
  rw [flushSettle_ok]
  have hfire :=
    flushStart_fire { addAppend s e with isProcessing := false } rfl
      (by simp)
  rw [hfire]
  simp

/-- Witness for C9: `batchSize = 2`, one pending event, one add while a
delivery is in flight. -/
theorem C9_witness :
    (add qBusy ev2).2 = none ∧
    (add qBusy ev2).1.events = qBusy.events ++ [ev2] ∧
    (add qBusy ev2).1.isProcessing = true ∧
    (flushStart (flushSettle (add qBusy ev2).1 [ev1] true)).2
      = some (qBusy.events ++ [ev2]) :=
  C9_add_while_processing_no_send qBusy ev2 [ev1] rfl (by decide)

/-- C10: a `clear()` issued while a flush is in flight does not survive a
failing delivery: the failed batch is reinserted into the just-cleared
pending sequence and re-persisted, so after the failure settles `size()`
equals the batch length, not `0`. -/
theorem C10_clear_races_failing_flight (s : EventQueue)
    (h1 : s.isProcessing = false) (h2 : s.events ≠ []) :
    (flushStart s).2 = some s.events ∧
    (EventQueue.clear (flushStart s).1).events = [] ∧
    (flushSettle (EventQueue.clear (flushStart s).1) s.events false).events
      = s.events ∧
    size (flushSettle (EventQueue.clear (flushStart s).1) s.events false)
      = s.events.length ∧
    size (flushSettle (EventQueue.clear (flushStart s).1) s.events false)
      ≠ 0 ∧
    Storage.get queueNs false
        (flushSettle (EventQueue.clear (flushStart s).1) s.events
          false).store "events"
      = some s.events := by
  have hfire := flushStart_fire s h1 h2
  rw [hfire]
  have hev : (flushSettle
      (EventQueue.clear
        (persistEvents { s with isProcessing := true, events := [] }))
      s.events false).events = s.events := by
    rw [flushSettle_fail_events]
    simp
  refine ⟨rfl, rfl, hev, ?_, ?_, ?_⟩
  · rw [size_def, hev]
  · rw [size_def, hev]
    intro hcontr
    exact h2 (List.length_eq_zero.mp hcontr)
  · rw [flushSettle_fail_get]
    simp

/-- Witness for C10: one pending event; clear lands between the snapshot
and the failing settlement. -/
theorem C10_witness :
    (flushStart qA).2 = some qA.events ∧
    (EventQueue.clear (flushStart qA).1).events = [] ∧
    (flushSettle (EventQueue.clear (flushStart qA).1) qA.events false).events
      = qA.events ∧
    size (flushSettle (EventQueue.clear (flushStart qA).1) qA.events false)
      = qA.events.length ∧
    size (flushSettle (EventQueue.clear (flushStart qA).1) qA.events false)
      ≠ 0 ∧
    Storage.get queueNs false
        (flushSettle (EventQueue.clear (flushStart qA).1) qA.events
          false).store "events"
      = some qA.events :=
  C10_clear_races_failing_flight qA rfl (by decide)

/-- C5: in every state reachable by any interleaving of `add`, timer or
manual `flush`, settlement and `clear` steps, at most one sender
invocation is in flight; and a `flush` entered while one is in flight
changes nothing — same queue state, same in-flight list, and zero
additional sender calls. -/
theorem C5_at_most_one_inflight (bs fi : Nat) (st : Store) (m : Machine)
    (h : Reachable (initMachine bs fi st) m) :
    m.inflight.length ≤ 1 ∧
    (m.q.isProcessing = true → m.stepFlush = m) := by
  have hinv := procInv_reachable h
  constructor
  · unfold ProcInv at hinv
    rw [hinv]
    split <;> omega
  · exact fun hp => stepFlush_noop m hp

/-- Witness for C5: the machine reached by one `flush` on a queue that
recovered one persisted event; the delivery is in flight there, and a
second `flush` is a complete no-op. -/
theorem C5_witness : m1.inflight.length ≤ 1 ∧ m1.stepFlush = m1 :=
  ⟨(C5_at_most_one_inflight 1 5 st0 m1
      (Reachable.tail Reachable.refl (Step.flush _))).1,
   (C5_at_most_one_inflight 1 5 st0 m1
      (Reachable.tail Reachable.refl (Step.flush _))).2 (by decide)⟩

/-- C6 as stated is false on the code: at this concrete queue the sender
fails (`Network error`) for a handed-over batch, yet the promise returned
by the explicit `flush()` call resolves — it does not reject. -/
theorem C6_counterexample :
    (flushStart qB).2 = some [ev1] ∧
    (runFlush qB (Except.error "Network error")).2
      = FlushOutcome.resolved ∧
    (runFlush qB (Except.error "Network error")).2
      ≠ FlushOutcome.rejected := by
  refine ⟨by decide, by decide, by decide⟩

/-- C6 (amended): when the sender of a handed-over batch fails, the
failure is logged and propagated to no caller at all: the promise returned
by `flush()` resolves for timer-driven and explicit callers alike. -/
theorem C6_failure_logged_resolves (s : EventQueue) (err : String)
    (h : (flushStart s).2 ≠ none) :
    (runFlush s (Except.error err)).2 = FlushOutcome.resolved ∧
    (runFlush s (Except.error err)).1.log
      = s.log ++ ["Failed to flush events"] := by
  rcases hf : flushStart s with ⟨s1, ob⟩
  have hlog : s1.log = s.log := by
    have hl := flushStart_fst_log s
    rw [hf] at hl
    exact hl
  cases ob with
  | none =>
    rw [hf] at h
    exact absurd rfl h
  | some b =>
    constructor
    · simp [runFlush, hf]
    · simp [runFlush, hf, flushSettle_fail_log, hlog]

/-- Witness for the amended C6. -/
theorem C6_witness :
    (runFlush qB (Except.error "Network error")).2
      = FlushOutcome.resolved ∧
    (runFlush qB (Except.error "Network error")).1.log
      = qB.log ++ ["Failed to flush events"] :=
  C6_failure_logged_resolves qB "Network error" (by decide)

/-- C7: `clear()` empties the in-memory pending sequence and erases every
persisted key under the queue's namespace (any key read through the
queue's storage wrapper is absent afterwards), hands nothing to the sender
(an event-loop `clear` step leaves the in-flight list and the sender-call
count untouched), and a queue newly constructed over the cleared medium
starts with `size() = 0`. -/
theorem C7_clear_resets (s : EventQueue) (bs fi : Nat) (k : String)
    (m : Machine) :
    (EventQueue.clear s).events = [] ∧
    size (EventQueue.clear s) = 0 ∧
    Storage.get queueNs false (EventQueue.clear s).store k = none ∧
    size (mkQueue bs fi (EventQueue.clear s).store) = 0 ∧
    m.stepClear.senderCalls = m.senderCalls ∧
    m.stepClear.inflight = m.inflight := by
  have hget : ∀ k' : String,
      Storage.get queueNs false (EventQueue.clear s).store k' = none := by
    intro k'
    show Storage.get queueNs false
      (s.store.filter (fun kv => !(strStartsWith kv.1 queueNs))) k' = none
    simp [Storage.get, lsGetItem,
      lookup_filter_ns_none s.store queueNs (queueNs ++ k')
        (strStartsWith_append queueNs k')]
  refine ⟨rfl, rfl, hget k, ?_, rfl, rfl⟩
  simp [mkQueue, size_def, hget "events"]

/-- C8: the Durable Slot operations never throw past their boundary: under
an underlying-storage failure, `get` returns absent, `set`/`remove`/`clear`
return a `false` success flag with the medium untouched, and the queue's
in-memory state stays unchanged and authoritative when its persist write
fails. -/
theorem C8_storage_degrades_never_throws {α : Type} (ns key : String)
    (ls : Medium α) (v : α) (s : EventQueue) :
    Storage.get ns true ls key = none ∧
    Storage.set ns true ls key v = (ls, false) ∧
    Storage.remove ns true ls key = (ls, false) ∧
    Storage.clear ns true ls = (ls, false) ∧
    (persistEventsWith true s).events = s.events ∧
    (persistEventsWith true s).store = s.store :=
  ⟨rfl, rfl, rfl, rfl, rfl, rfl⟩

end AnalyticsSDK
